import Mathlib

/-!
Verification of the scroll-extract-deduplicate core of
`src/twitter_json_scraper.py` (functions `clean_tweet_text`,
`extract_tweet_data`, `scrape_tweets`), as a shallow embedding.

A rendered article fragment is modelled by the pieces of it that the
extractor actually reads: the optional time marker (its `datetime`
attribute and the `href` of its grand-parent link, when that ancestor
chain exists), the optional tweet-text container (its raw inner text),
and the list of `role=group` statistics divs (each as the list of the
texts of its sub-divs, in document order).

Browser-only effects (navigation, the login-wall wait, `time.sleep`,
`random_scroll`, progress printing) do not touch the session state and
are omitted; the page source read at scroll cycle `k` is modelled by a
function `pages : Nat → List Article`.
-/

namespace TwitterScraper

/-- Model of `clean_tweet_text`, step 1: the effect of
`re.sub(r'\s+', ' ', text)` on a character list — every maximal run of
whitespace is replaced by a single space. -/
def collapseWs : List Char → List Char
  | [] => []
  | [c] => [if c.isWhitespace then ' ' else c]
  | c :: c2 :: cs =>
    if c.isWhitespace && c2.isWhitespace then collapseWs (c2 :: cs)
    else (if c.isWhitespace then ' ' else c) :: collapseWs (c2 :: cs)

/-- Model of Python `str.strip()` on a character list. -/
def stripChars (l : List Char) : List Char :=
  ((l.dropWhile Char.isWhitespace).reverse.dropWhile Char.isWhitespace).reverse

/-- Model of `clean_tweet_text`: collapse whitespace runs, then strip. -/
def clean_tweet_text (s : String) : String :=
  ⟨stripChars (collapseWs s.data)⟩

/-- Model of `tweet_link.split('/')[-1]`: the last element of a split on
the single character `/` is the (possibly empty) suffix after the last
`/`, or the whole string when it contains no `/`. -/
def lastSegment (s : String) : String :=
  ⟨(s.data.reverse.takeWhile (fun c => c ≠ '/')).reverse⟩

/-- Model of `re.search(r'\d+', text)`: the first maximal run of decimal
digits in the character list, or `none` when there is no digit. -/
def firstDigitRun : List Char → Option (List Char)
  | [] => none
  | c :: cs => if c.isDigit then some (c :: cs.takeWhile Char.isDigit) else firstDigitRun cs

/-- Model of Python `int` applied to a non-empty digit string. -/
def digitsToNat (l : List Char) : Nat :=
  l.foldl (fun acc c => acc * 10 + (c.toNat - 48)) 0

/-- Model of `int(stat_value.group()) if stat_value else 0` for one
statistics sub-element text. -/
def statValue (s : String) : Nat :=
  match firstDigitRun s.data with
  | some run => digitsToNat run
  | none => 0

/-- The parts of the `<time>` marker that `extract_tweet_data` reads:
its `datetime` attribute (absent attribute makes `time_element['datetime']`
raise `KeyError`), and the grand-parent link. `linkTarget = none` models a
broken `time_element.parent.parent` chain; `some h` models a present
grand-parent whose `.get('href')` returns `h`. -/
structure TimeElem where
  datetimeAttr : Option String
  linkTarget : Option (Option String)
deriving DecidableEq

/-- The parts of one `<article>` fragment that `extract_tweet_data`
reads. `tweetTextDiv` holds the raw `get_text()` of the
`data-testid=tweetText` div when that div exists; `statsGroups` holds,
for each `role=group` div in document order, the texts of its sub-divs. -/
structure Article where
  timeElem : Option TimeElem
  tweetTextDiv : Option String
  statsGroups : List (List String)
deriving DecidableEq

/-- One extracted tweet record (the dict built at the end of
`extract_tweet_data`). Counts are `Nat`: Python's `int()` of a digit run
is a non-negative integer. -/
structure TweetData where
  tweet_id : String
  timestamp : String
  text : String
  replies : Nat
  retweets : Nat
  likes : Nat
  url : String
deriving DecidableEq

/-- Tweet id derivation: `time_element.parent.parent.get('href')`,
guarded by the truthiness checks on the ancestor chain and on the href
(an empty href string is falsy in Python). -/
def tweetIdOf (te : TimeElem) : String :=
  match te.linkTarget with
  | some (some href) => if href = "" then "Unknown" else lastSegment href
  | _ => "Unknown"

/-- Tweet text: `clean_tweet_text` of the text container, or the
sentinel when the container is absent. -/
def tweetTextOf (a : Article) : String :=
  match a.tweetTextDiv with
  | some raw => clean_tweet_text raw
  | none => "No text found"

/-- The sub-element texts of the first `role=group` div; empty when
`stats_divs` is empty (then `stats` stays `{}` and every count defaults
to `0`). -/
def statElems (a : Article) : List String :=
  match a.statsGroups with
  | [] => []
  | g :: _ => g

/-- Count at fixed position `i` of the stats sub-elements: set from the
first digit run of the text when `i < len(stats_elements)`, else the
`stats.get(..., 0)` default. -/
def statAt (elems : List String) (i : Nat) : Nat :=
  match elems.get? i with
  | some t => statValue t
  | none => 0

/-- The record dict built at lines 114-122 of the source, given the
already-computed timestamp and tweet id. Positions 0, 1, 2 of the stats
sub-elements are replies, retweets, likes, in that fixed order. -/
def buildRecord (timestamp tweet_id : String) (a : Article) (username : String) : TweetData :=
  { tweet_id := tweet_id
    timestamp := timestamp
    text := tweetTextOf a
    replies := statAt (statElems a) 0
    retweets := statAt (statElems a) 1
    likes := statAt (statElems a) 2
    url :=
      if tweet_id ≠ "Unknown" then
        "https://twitter.com/" ++ username ++ "/status/" ++ tweet_id
      else "Unknown" }

/-- Model of `extract_tweet_data(article, username)`. The only statement
in the `try` block that can raise on a well-formed fragment model is
`time_element['datetime']` (a `KeyError` when the `<time>` element exists
but carries no `datetime` attribute); the `except` clause then returns
`None`, modelled as `none`. Every other absence is handled by an explicit
default in the source. -/
def extract_tweet_data (a : Article) (username : String) : Option TweetData :=
  match a.timeElem with
  | none => some (buildRecord "Unknown" "Unknown" a username)
  | some te =>
    match te.datetimeAttr with
    | none => none
    | some ts => some (buildRecord ts (tweetIdOf te) a username)

/-- Crawl session state of `scrape_tweets`: the accepted list `tweets`,
and the two dedup sets (modelled as lists, membership is all that is
used). -/
structure SessionState where
  tweets : List TweetData
  uniqueIds : List String
  uniqueTexts : List String
deriving DecidableEq

/-- The state at loop entry: `tweets = []`, both sets empty. -/
def initState : SessionState := ⟨[], [], []⟩

/-- The body of `for article in articles`: extract, run the two dedup
checks, and on acceptance append the record and update the sets. Returns
the new state and whether the record was accepted (the
`new_tweets_found += 1` event). -/
def processArticle (username : String) (s : SessionState) (a : Article) :
    SessionState × Bool :=
  match extract_tweet_data a username with
  | none => (s, false)
  | some td =>
    if td.tweet_id ≠ "Unknown" ∧ td.tweet_id ∈ s.uniqueIds then (s, false)
    else if td.text ∈ s.uniqueTexts then (s, false)
    else
      ({ tweets := s.tweets ++ [td]
         uniqueIds := if td.tweet_id ≠ "Unknown" then td.tweet_id :: s.uniqueIds else s.uniqueIds
         uniqueTexts := td.text :: s.uniqueTexts }, true)

/-- The whole `for article in articles` loop of one scroll cycle,
returning the new state and `new_tweets_found`. -/
def processArticles (username : String) : SessionState → List Article → SessionState × Nat
  | s, [] => (s, 0)
  | s, a :: rest =>
    let p := processArticle username s a
    let q := processArticles username p.1 rest
    (q.1, (if p.2 then 1 else 0) + q.2)

/-- The `while scroll_count < max_scrolls` loop. `fuel` is
`max_scrolls - scroll_count` and `k` is `scroll_count`, so the guard
`scroll_count < max_scrolls` is `fuel > 0`; `idle` is
`consecutive_no_new_tweets`. The returned list is the trace of
`new_tweets_found` values of the executed cycles (its length is the
number of scroll cycles performed). The `break` on `idle' ≥ 5` happens
after the cycle's work and the counter updates, as in the source. -/
def scrapeLoop (username : String) (pages : Nat → List Article) :
    Nat → Nat → Nat → SessionState → SessionState × List Nat
  | 0, _, _, s => (s, [])
  | fuel + 1, k, idle, s =>
    let p := processArticles username s (pages k)
    let idle' := if p.2 = 0 then idle + 1 else 0
    if 5 ≤ idle' then (p.1, [p.2])
    else
      let q := scrapeLoop username pages fuel (k + 1) idle' p.1
      (q.1, p.2 :: q.2)

/-- Model of `scrape_tweets` from the top of its scroll loop:
`scroll_count = 0`, `consecutive_no_new_tweets = 0`, empty session
state. `pages k` is the list of article fragments parsed from the page
source at cycle `k`. -/
def scrape_tweets (username : String) (pages : Nat → List Article) (maxScrolls : Nat) :
    SessionState × List Nat :=
  scrapeLoop username pages maxScrolls 0 0 initState

/-- Model of the sleep argument at line 204 of the source:
`scroll_pause_time + random.uniform(-scroll_variation, scroll_variation)`,
with the uniform sample passed in as `jitter`. The source applies no
clamping to this sum. -/
def sleepArg (basePause jitter : ℚ) : ℚ := basePause + jitter

/-- A fragment is blocked in a state when, would it extract to a record,
that record fails one of the two duplicate checks there. Extraction
failures are vacuously blocked. -/
def blocked (u : String) (s : SessionState) (a : Article) : Prop :=
  ∀ td, extract_tweet_data a u = some td →
    (td.tweet_id ≠ "Unknown" ∧ td.tweet_id ∈ s.uniqueIds) ∨ td.text ∈ s.uniqueTexts

/-- Invariant of the session state: every accepted record's text is
registered in `uniqueTexts`, and the accepted texts are pairwise
distinct. -/
def goodState (s : SessionState) : Prop :=
  (∀ td ∈ s.tweets, td.text ∈ s.uniqueTexts) ∧ (s.tweets.map TweetData.text).Nodup

/-- Concrete fragments and states used to instantiate the theorems. -/
def cPagesC2 : Nat → List Article := fun k =>
  [⟨none, some (if k = 0 then "t0" else if k = 1 then "t1" else "t2"), []⟩]

def cPagesC3 : Nat → List Article := fun k =>
  if k = 0 then [⟨none, some "aa", []⟩] else [⟨none, some "aa", []⟩, ⟨none, some "bb", []⟩]

def cA6 : Article := ⟨some ⟨some "2024-01-01T00:00:00Z", some (some "/alice/status/42")⟩, some "dup text", []⟩

def cTd6 : TweetData :=
  ⟨"42", "2024-01-01T00:00:00Z", "dup text", 0, 0, 0, "https://twitter.com/alice/status/42"⟩

def cS6 : SessionState := ⟨[], ["99"], ["dup text"]⟩

def cA9a : Article := ⟨some ⟨some "2024", some (some "/alice/status/111")⟩, none, []⟩

def cA9b : Article := ⟨some ⟨some "2024", some (some "/alice/status/222")⟩, none, []⟩

def cTd9a : TweetData := ⟨"111", "2024", "No text found", 0, 0, 0, "https://twitter.com/alice/status/111"⟩

def cTd9b : TweetData := ⟨"222", "2024", "No text found", 0, 0, 0, "https://twitter.com/alice/status/222"⟩

def cA10 : Article := ⟨some ⟨none, none⟩, some "xx", []⟩

def cA10r : Article := ⟨none, some "yy", []⟩

def cA5 : Article := ⟨some ⟨none, some (some "/alice/status/9")⟩, some "hello", [["1 reply", "2 reposts", "3 likes"]]⟩

def cA5b : Article := ⟨none, some "ww", [["4"]]⟩

lemma processArticles_nil (u : String) (s : SessionState) :
    processArticles u s [] = (s, 0) := rfl

lemma processArticles_cons (u : String) (s : SessionState) (a : Article) (rest : List Article) :
    processArticles u s (a :: rest) =
      ((processArticles u (processArticle u s a).1 rest).1,
       (if (processArticle u s a).2 then 1 else 0) +
         (processArticles u (processArticle u s a).1 rest).2) := rfl

lemma scrapeLoop_zero (u : String) (pages : Nat → List Article) (k idle : Nat) (s : SessionState) :
    scrapeLoop u pages 0 k idle s = (s, []) := rfl

lemma scrapeLoop_succ (u : String) (pages : Nat → List Article) (fuel k idle : Nat) (s : SessionState) :
    scrapeLoop u pages (fuel + 1) k idle s =
      if 5 ≤ (if (processArticles u s (pages k)).2 = 0 then idle + 1 else 0) then
        ((processArticles u s (pages k)).1, [(processArticles u s (pages k)).2])
      else
        ((scrapeLoop u pages fuel (k + 1)
            (if (processArticles u s (pages k)).2 = 0 then idle + 1 else 0)
            (processArticles u s (pages k)).1).1,
         (processArticles u s (pages k)).2 ::
           (scrapeLoop u pages fuel (k + 1)
             (if (processArticles u s (pages k)).2 = 0 then idle + 1 else 0)
             (processArticles u s (pages k)).1).2) := rfl

/-- Case analysis on the body of the article loop: either the record is
dropped (state unchanged, and the fragment is blocked in the current
state), or it passes both checks and is appended. -/
lemma processArticle_cases (u : String) (s : SessionState) (a : Article) :
    (processArticle u s a = (s, false) ∧ blocked u s a) ∨
    ∃ td, extract_tweet_data a u = some td ∧
      ¬(td.tweet_id ≠ "Unknown" ∧ td.tweet_id ∈ s.uniqueIds) ∧
      td.text ∉ s.uniqueTexts ∧
      processArticle u s a =
        ({ tweets := s.tweets ++ [td]
           uniqueIds := if td.tweet_id ≠ "Unknown" then td.tweet_id :: s.uniqueIds else s.uniqueIds
           uniqueTexts := td.text :: s.uniqueTexts }, true) := by
  cases hE : extract_tweet_data a u with
  | none =>
    left
    refine ⟨by simp [processArticle, hE], ?_⟩
    intro td h
    rw [hE] at h
    cases h
  | some td =>
    by_cases h1 : td.tweet_id ≠ "Unknown" ∧ td.tweet_id ∈ s.uniqueIds
    · left
      refine ⟨by simp [processArticle, hE, h1], ?_⟩
      intro td' h'
      rw [hE] at h'
      cases Option.some.inj h'
      exact Or.inl h1
    · by_cases h2 : td.text ∈ s.uniqueTexts
      · left
        refine ⟨by simp [processArticle, hE, h1, h2], ?_⟩
        intro td' h'
        rw [hE] at h'
        cases Option.some.inj h'
        exact Or.inr h2
      · right
        exact ⟨td, rfl, h1, h2, by simp [processArticle, hE, h1, h2]⟩

lemma processArticle_ids_sub (u : String) (s : SessionState) (a : Article) :
    ∀ x ∈ s.uniqueIds, x ∈ (processArticle u s a).1.uniqueIds := by
  intro x hx
  rcases processArticle_cases u s a with ⟨hc, _⟩ | ⟨td, _, _, _, hc⟩
  · rw [hc]; exact hx
  · rw [hc]
    dsimp
    split
    · exact List.mem_cons_of_mem _ hx
    · exact hx

lemma processArticle_texts_sub (u : String) (s : SessionState) (a : Article) :
    ∀ x ∈ s.uniqueTexts, x ∈ (processArticle u s a).1.uniqueTexts := by
  intro x hx
  rcases processArticle_cases u s a with ⟨hc, _⟩ | ⟨td, _, _, _, hc⟩
  · rw [hc]; exact hx
  · rw [hc]
    exact List.mem_cons_of_mem _ hx

lemma processArticles_ids_sub (u : String) (l : List Article) :
    ∀ s, ∀ x ∈ s.uniqueIds, x ∈ (processArticles u s l).1.uniqueIds := by
  induction l with
  | nil => intro s x hx; exact hx
  | cons a rest ih =>
    intro s x hx
    rw [processArticles_cons]
    exact ih _ x (processArticle_ids_sub u s a x hx)

lemma processArticles_texts_sub (u : String) (l : List Article) :
    ∀ s, ∀ x ∈ s.uniqueTexts, x ∈ (processArticles u s l).1.uniqueTexts := by
  induction l with
  | nil => intro s x hx; exact hx
  | cons a rest ih =>
    intro s x hx
    rw [processArticles_cons]
    exact ih _ x (processArticle_texts_sub u s a x hx)

lemma blocked_mono {u : String} {s s' : SessionState} {a : Article} (h : blocked u s a)
    (hi : ∀ x ∈ s.uniqueIds, x ∈ s'.uniqueIds)
    (ht : ∀ x ∈ s.uniqueTexts, x ∈ s'.uniqueTexts) : blocked u s' a := by
  intro td hE
  rcases h td hE with ⟨hk, hm⟩ | hm
  · exact Or.inl ⟨hk, hi _ hm⟩
  · exact Or.inr (ht _ hm)

lemma processArticle_of_blocked {u : String} {s : SessionState} {a : Article}
    (h : blocked u s a) : processArticle u s a = (s, false) := by
  rcases processArticle_cases u s a with ⟨hc, _⟩ | ⟨td, hE, h1, h2, _⟩
  · exact hc
  · rcases h td hE with h' | h'
    · exact absurd h' h1
    · exact absurd h' h2

lemma blocked_after (u : String) (s : SessionState) (a : Article) :
    blocked u (processArticle u s a).1 a := by
  rcases processArticle_cases u s a with ⟨hc, hb⟩ | ⟨td, hE, _, _, hc⟩
  · rw [hc]; exact hb
  · rw [hc]
    intro td' h'
    rw [hE] at h'
    cases Option.some.inj h'
    exact Or.inr (List.mem_cons_self _ _)

lemma blocked_all_after (u : String) (l : List Article) :
    ∀ s, ∀ a ∈ l, blocked u (processArticles u s l).1 a := by
  induction l with
  | nil => intro s a ha; cases ha
  | cons a rest ih =>
    intro s b hb
    rw [processArticles_cons]
    rcases List.mem_cons.1 hb with rfl | hb'
    · exact blocked_mono (blocked_after u s b)
        (processArticles_ids_sub u rest _) (processArticles_texts_sub u rest _)
    · exact ih _ b hb'

lemma processArticles_of_blocked (u : String) (l : List Article) :
    ∀ s, (∀ a ∈ l, blocked u s a) → processArticles u s l = (s, 0) := by
  induction l with
  | nil => intro s _; rfl
  | cons a rest ih =>
    intro s h
    rw [processArticles_cons, processArticle_of_blocked (h a (List.mem_cons_self a rest))]
    dsimp
    rw [ih s (fun b hb => h b (List.mem_cons_of_mem a hb))]
    simp

lemma processArticles_append (u : String) (l1 l2 : List Article) :
    ∀ s, processArticles u s (l1 ++ l2) =
      ((processArticles u (processArticles u s l1).1 l2).1,
       (processArticles u s l1).2 + (processArticles u (processArticles u s l1).1 l2).2) := by
  induction l1 with
  | nil => intro s; simp [processArticles_nil]
  | cons a l1 ih =>
    intro s
    rw [List.cons_append, processArticles_cons, processArticles_cons, ih]
    simp [Nat.add_assoc]

lemma goodState_init : goodState initState := by
  constructor
  · intro td h; cases h
  · simp [initState]

lemma processArticle_good (u : String) (s : SessionState) (a : Article)
    (h : goodState s) : goodState (processArticle u s a).1 := by
  rcases processArticle_cases u s a with ⟨hc, _⟩ | ⟨td, _, _, h2, hc⟩
  · rw [hc]; exact h
  · rw [hc]
    constructor
    · intro td' htd'
      dsimp at htd' ⊢
      rcases List.mem_append.1 htd' with h' | h'
      · exact List.mem_cons_of_mem _ (h.1 td' h')
      · rcases List.mem_singleton.1 h' with rfl
        exact List.mem_cons_self _ _
    · dsimp
      rw [List.map_append]
      refine List.Nodup.append h.2 (by simp) ?_
      intro x hx hx'
      simp only [List.map_cons, List.map_nil, List.mem_singleton] at hx'
      subst hx'
      rcases List.mem_map.1 hx with ⟨td', htd', heq⟩
      exact h2 (heq ▸ h.1 td' htd')

lemma processArticles_good (u : String) (l : List Article) :
    ∀ s, goodState s → goodState (processArticles u s l).1 := by
  induction l with
  | nil => intro s h; exact h
  | cons a rest ih =>
    intro s h
    rw [processArticles_cons]
    exact ih _ (processArticle_good u s a h)

lemma extract_of_no_time (a : Article) (u : String) (h : a.timeElem = none) :
    extract_tweet_data a u = some (buildRecord "Unknown" "Unknown" a u) := by
  unfold extract_tweet_data
  rw [h]

lemma extract_of_no_datetime (a : Article) (te : TimeElem) (u : String)
    (h : a.timeElem = some te) (h2 : te.datetimeAttr = none) :
    extract_tweet_data a u = none := by
  unfold extract_tweet_data
  rw [h]
  simp [h2]

lemma extract_of_datetime (a : Article) (te : TimeElem) (ts : String) (u : String)
    (h : a.timeElem = some te) (h2 : te.datetimeAttr = some ts) :
    extract_tweet_data a u = some (buildRecord ts (tweetIdOf te) a u) := by
  unfold extract_tweet_data
  rw [h]
  simp [h2]

/-- The text of any successfully extracted record is the (cleaned or
sentinel) text of the fragment's text container. -/
lemma extract_text_eq (a : Article) (u : String) (td : TweetData)
    (h : extract_tweet_data a u = some td) : td.text = tweetTextOf a := by
  cases hT : a.timeElem with
  | none =>
    rw [extract_of_no_time a u hT] at h
    cases Option.some.inj h
    rfl
  | some te =>
    cases hD : te.datetimeAttr with
    | none =>
      rw [extract_of_no_datetime a te u hT hD] at h
      cases h
    | some ts =>
      rw [extract_of_datetime a te ts u hT hD] at h
      cases Option.some.inj h
      rfl

lemma processArticle_tweets_ext (u : String) (s : SessionState) (a : Article) :
    ∃ t, (processArticle u s a).1.tweets = s.tweets ++ t := by
  rcases processArticle_cases u s a with ⟨hc, _⟩ | ⟨td, _, _, _, hc⟩
  · exact ⟨[], by rw [hc]; simp⟩
  · exact ⟨[td], by rw [hc]⟩

lemma processArticles_tweets_ext (u : String) (l : List Article) :
    ∀ s, ∃ t, (processArticles u s l).1.tweets = s.tweets ++ t := by
  induction l with
  | nil => intro s; exact ⟨[], by simp [processArticles_nil]⟩
  | cons a rest ih =>
    intro s
    obtain ⟨t1, h1⟩ := processArticle_tweets_ext u s a
    obtain ⟨t2, h2⟩ := ih (processArticle u s a).1
    refine ⟨t1 ++ t2, ?_⟩
    rw [processArticles_cons]
    dsimp
    rw [h2, h1, List.append_assoc]

lemma scrapeLoop_tweets_ext (u : String) (pages : Nat → List Article) :
    ∀ fuel k idle s, ∃ t, (scrapeLoop u pages fuel k idle s).1.tweets = s.tweets ++ t := by
  intro fuel
  induction fuel with
  | zero => intro k idle s; exact ⟨[], by simp [scrapeLoop_zero]⟩
  | succ n ih =>
    intro k idle s
    obtain ⟨t1, h1⟩ := processArticles_tweets_ext u (pages k) s
    rw [scrapeLoop_succ]
    by_cases hbr : 5 ≤ (if (processArticles u s (pages k)).2 = 0 then idle + 1 else 0)
    · rw [if_pos hbr]
      exact ⟨t1, h1⟩
    · rw [if_neg hbr]
      obtain ⟨t2, h2⟩ := ih (k + 1)
        (if (processArticles u s (pages k)).2 = 0 then idle + 1 else 0)
        (processArticles u s (pages k)).1
      refine ⟨t1 ++ t2, ?_⟩
      dsimp
      rw [h2, h1, List.append_assoc]

/-- C1: Idempotent deduplication — running the article loop over the
same fragment sequence twice produces exactly the result of running it
once (the second pass accepts zero records and leaves the state
unchanged), and the accepted records have pairwise distinct texts, so
each logical post is appended at most once and never re-appended. -/
theorem dedup_idempotent_second_pass (u : String) (frags : List Article) :
    processArticles u initState (frags ++ frags) = processArticles u initState frags ∧
    (((processArticles u initState frags).1.tweets.map TweetData.text).Nodup) := by
  constructor
  · rw [processArticles_append]
    rw [processArticles_of_blocked u frags _ (blocked_all_after u frags initState)]
    simp
  · exact (processArticles_good u frags initState goodState_init).2

/-- C6: The fallback text check applies to every candidate record: a
record whose text is already in `seen_texts` is rejected with the state
unchanged, with no assumption on its id (in particular even when the id
is known and not in `seen_ids`). -/
theorem text_fallback_rejects_known_id (u : String) (s : SessionState) (a : Article)
    (td : TweetData) (hE : extract_tweet_data a u = some td)
    (ht : td.text ∈ s.uniqueTexts) : processArticle u s a = (s, false) := by
  apply processArticle_of_blocked
  intro td' hE'
  rw [hE] at hE'
  cases Option.some.inj hE'
  exact Or.inr ht

/-- C6 witness: a concrete record with a known id that is absent from
`seen_ids` is still rejected because its text is in `seen_texts`. -/
theorem text_fallback_rejects_known_id_witness :
    extract_tweet_data cA6 "alice" = some cTd6 ∧ cTd6.tweet_id = "42" ∧
    cTd6.tweet_id ∉ cS6.uniqueIds ∧ cTd6.text ∈ cS6.uniqueTexts ∧
    processArticle "alice" cS6 cA6 = (cS6, false) :=
  ⟨by decide, rfl, by decide, by decide,
   text_fallback_rejects_known_id "alice" cS6 cA6 cTd6 (by decide) (by decide)⟩

/-- C8: The accepted collection is append-only: the article-loop body,
the per-cycle article loop, and the whole scroll loop each only ever
extend the accepted sequence on the right, so insertion order is
discovery order and earlier contents are never removed or reordered. -/
theorem accepted_append_only (u : String) :
    (∀ s a, ∃ t, (processArticle u s a).1.tweets = s.tweets ++ t) ∧
    (∀ l s, ∃ t, (processArticles u s l).1.tweets = s.tweets ++ t) ∧
    (∀ pages fuel k idle s, ∃ t, (scrapeLoop u pages fuel k idle s).1.tweets = s.tweets ++ t) := by
  refine ⟨fun s a => processArticle_tweets_ext u s a,
          fun l s => processArticles_tweets_ext u l s,
          fun pages fuel k idle s => scrapeLoop_tweets_ext u pages fuel k idle s⟩

/-- C9: Two fragments that both lack a body-text container extract to
records with the identical sentinel text, so only the first is accepted:
the second is rejected by the text-fallback check, regardless of their
ids. -/
theorem textless_posts_collide (u : String) (a1 a2 : Article) (td1 td2 : TweetData)
    (h1 : a1.tweetTextDiv = none) (h2 : a2.tweetTextDiv = none)
    (hE1 : extract_tweet_data a1 u = some td1) (hE2 : extract_tweet_data a2 u = some td2) :
    td1.text = "No text found" ∧ td2.text = "No text found" ∧
    (processArticles u initState [a1, a2]).1.tweets = [td1] ∧
    (processArticles u initState [a1, a2]).2 = 1 := by
  have ht1 : td1.text = "No text found" := by
    rw [extract_text_eq a1 u td1 hE1]; unfold tweetTextOf; rw [h1]
  have ht2 : td2.text = "No text found" := by
    rw [extract_text_eq a2 u td2 hE2]; unfold tweetTextOf; rw [h2]
  rcases processArticle_cases u initState a1 with ⟨_, hb⟩ | ⟨td, hE, _, _, hc⟩
  · rcases hb td1 hE1 with ⟨_, hm⟩ | hm
    · cases hm
    · cases hm
  · rw [hE1] at hE
    cases Option.some.inj hE
    have hblock : blocked u (processArticle u initState a1).1 a2 := by
      intro td' hE'
      rw [hE2] at hE'
      cases Option.some.inj hE'
      rw [hc]
      refine Or.inr ?_
      dsimp
      rw [ht2, ← ht1]
      exact List.mem_cons_self _ _
    have key : processArticles u initState [a1, a2] = ((processArticle u initState a1).1, 1) := by
      rw [processArticles_cons, processArticles_cons,
          processArticle_of_blocked hblock, processArticles_nil, hc]
      simp
    refine ⟨ht1, ht2, ?_, ?_⟩
    · rw [key, hc]
      simp [initState]
    · rw [key]

/-- C9 witness: two concrete textless fragments with distinct known ids;
only the first is accepted. -/
theorem textless_posts_collide_witness :
    cA9a.tweetTextDiv = none ∧ cA9b.tweetTextDiv = none ∧
    cTd9a.tweet_id = "111" ∧ cTd9b.tweet_id = "222" ∧
    (processArticles "alice" initState [cA9a, cA9b]).1.tweets = [cTd9a] :=
  ⟨rfl, rfl, rfl, rfl,
   (textless_posts_collide "alice" cA9a cA9b cTd9a cTd9b rfl rfl
     (by decide) (by decide)).2.2.1⟩

/-- C10: Extraction failure is atomic: a fragment whose extraction
returns no record leaves the session state and the cycle's new-record
count untouched, and the article loop continues with the remaining
fragments exactly as if the failing fragment were not there. -/
theorem extraction_failure_atomic (u : String) (s : SessionState) (a : Article)
    (rest : List Article) (hE : extract_tweet_data a u = none) :
    processArticle u s a = (s, false) ∧
    processArticles u s (a :: rest) = processArticles u s rest := by
  have h1 : processArticle u s a = (s, false) := by
    apply processArticle_of_blocked
    intro td h
    rw [hE] at h
    cases h
  refine ⟨h1, ?_⟩
  rw [processArticles_cons, h1]
  simp

/-- C10 witness: a concrete fragment whose time marker lacks the
`datetime` attribute fails extraction and is skipped without touching
the state. -/
theorem extraction_failure_atomic_witness :
    extract_tweet_data cA10 "alice" = none ∧
    processArticle "alice" initState cA10 = (initState, false) ∧
    processArticles "alice" initState [cA10, cA10r] = processArticles "alice" initState [cA10r] :=
  ⟨by decide,
   (extraction_failure_atomic "alice" initState cA10 [cA10r] (by decide)).1,
   (extraction_failure_atomic "alice" initState cA10 [cA10r] (by decide)).2⟩

lemma scrapeLoop_len_le (u : String) (pages : Nat → List Article) :
    ∀ fuel k idle s, (scrapeLoop u pages fuel k idle s).2.length ≤ fuel := by
  intro fuel
  induction fuel with
  | zero => intro k idle s; simp [scrapeLoop_zero]
  | succ n ih =>
    intro k idle s
    rw [scrapeLoop_succ]
    by_cases hbr : 5 ≤ (if (processArticles u s (pages k)).2 = 0 then idle + 1 else 0)
    · rw [if_pos hbr]
      simp only [List.length_singleton]
      omega
    · rw [if_neg hbr]
      dsimp only
      have := ih (k + 1) (if (processArticles u s (pages k)).2 = 0 then idle + 1 else 0)
        (processArticles u s (pages k)).1
      simp only [List.length_cons]
      omega

lemma scrapeLoop_len_all_pos (u : String) (pages : Nat → List Article) :
    ∀ fuel k idle s, (∀ x ∈ (scrapeLoop u pages fuel k idle s).2, 0 < x) →
      (scrapeLoop u pages fuel k idle s).2.length = fuel := by
  intro fuel
  induction fuel with
  | zero => intro k idle s _; simp [scrapeLoop_zero]
  | succ n ih =>
    intro k idle s h
    have hmem : (processArticles u s (pages k)).2 ∈ (scrapeLoop u pages (n + 1) k idle s).2 := by
      rw [scrapeLoop_succ]
      by_cases hbr : 5 ≤ (if (processArticles u s (pages k)).2 = 0 then idle + 1 else 0)
      · rw [if_pos hbr]
        exact List.mem_singleton_self _
      · rw [if_neg hbr]
        exact List.mem_cons_self _ _
    have hp : (processArticles u s (pages k)).2 ≠ 0 := by
      have := h _ hmem
      omega
    rw [scrapeLoop_succ, if_neg hp, if_neg (show ¬ (5:Nat) ≤ 0 by omega)] at h ⊢
    dsimp only at h ⊢
    simp only [List.length_cons]
    have := ih (k + 1) 0 (processArticles u s (pages k)).1
      (fun x hx => h x (List.mem_cons_of_mem _ hx))
    omega

/-- Once five consecutive executed cycles have all produced zero new
records, the loop breaks: any five-zero window in the trace is the
trace's final five entries. The second conjunct strengthens the
statement for the induction: with `idle` zeros already accumulated,
`5 - idle` leading zeros end the run. -/
lemma scrapeLoop_idle_window (u : String) (pages : Nat → List Article) :
    ∀ fuel k idle s, idle < 5 →
      ((∀ j, (∀ i, i < 5 → (scrapeLoop u pages fuel k idle s).2.get? (j + i) = some 0) →
          (scrapeLoop u pages fuel k idle s).2.length = j + 5) ∧
       ((∀ i, i + idle < 5 → (scrapeLoop u pages fuel k idle s).2.get? i = some 0) →
          (scrapeLoop u pages fuel k idle s).2.length ≤ 5 - idle)) := by
  intro fuel
  induction fuel with
  | zero =>
    intro k idle s hidle
    constructor
    · intro j hj
      exfalso
      have h0 := hj 0 (by omega)
      simp [scrapeLoop_zero] at h0
    · intro _
      simp [scrapeLoop_zero]
  | succ n ih =>
    intro k idle s hidle
    by_cases hnf : (processArticles u s (pages k)).2 = 0
    · by_cases hbr : 5 ≤ idle + 1
      · rw [scrapeLoop_succ, if_pos hnf, if_pos hbr]
        dsimp only
        constructor
        · intro j hj
          exfalso
          have h1 := hj 1 (by omega)
          rw [List.get?_cons_succ, List.get?_nil] at h1
          simp at h1
        · intro _
          simp only [List.length_singleton]
          omega
      · rw [scrapeLoop_succ, if_pos hnf, if_neg hbr]
        dsimp only
        have IH := ih (k + 1) (idle + 1) (processArticles u s (pages k)).1 (by omega)
        constructor
        · intro j hj
          cases j with
          | zero =>
            have h4 := hj 4 (by omega)
            rw [show (0:Nat) + 4 = 3 + 1 from rfl, List.get?_cons_succ] at h4
            have hlen4 : 3 <
                (scrapeLoop u pages n (k + 1) (idle + 1) (processArticles u s (pages k)).1).2.length := by
              by_contra hcon
              rw [List.get?_eq_none.2 (by omega)] at h4
              simp at h4
            have hforall : ∀ i, i + (idle + 1) < 5 →
                (scrapeLoop u pages n (k + 1) (idle + 1) (processArticles u s (pages k)).1).2.get? i = some 0 := by
              intro i hi'
              have hji := hj (i + 1) (by omega)
              rw [Nat.zero_add, List.get?_cons_succ] at hji
              exact hji
            have hle := IH.2 hforall
            simp only [List.length_cons]
            omega
          | succ j' =>
            have hforall : ∀ i, i < 5 →
                (scrapeLoop u pages n (k + 1) (idle + 1) (processArticles u s (pages k)).1).2.get? (j' + i) = some 0 := by
              intro i hi'
              have hji := hj i hi'
              rw [show j' + 1 + i = (j' + i) + 1 from by omega, List.get?_cons_succ] at hji
              exact hji
            have := IH.1 j' hforall
            simp only [List.length_cons]
            omega
        · intro hi
          have hforall : ∀ i, i + (idle + 1) < 5 →
              (scrapeLoop u pages n (k + 1) (idle + 1) (processArticles u s (pages k)).1).2.get? i = some 0 := by
            intro i hi'
            have hii := hi (i + 1) (by omega)
            rw [List.get?_cons_succ] at hii
            exact hii
          have := IH.2 hforall
          simp only [List.length_cons]
          omega
    · rw [scrapeLoop_succ, if_neg hnf, if_neg (show ¬ (5:Nat) ≤ 0 by omega)]
      dsimp only
      have IH := ih (k + 1) 0 (processArticles u s (pages k)).1 (by omega)
      constructor
      · intro j hj
        cases j with
        | zero =>
          exfalso
          have h0 := hj 0 (by omega)
          rw [show (0:Nat) + 0 = 0 from rfl, List.get?_cons_zero] at h0
          exact hnf (Option.some.inj h0)
        | succ j' =>
          have hforall : ∀ i, i < 5 →
              (scrapeLoop u pages n (k + 1) 0 (processArticles u s (pages k)).1).2.get? (j' + i) = some 0 := by
            intro i hi'
            have hji := hj i hi'
            rw [show j' + 1 + i = (j' + i) + 1 from by omega, List.get?_cons_succ] at hji
            exact hji
          have := IH.1 j' hforall
          simp only [List.length_cons]
          omega
      · intro hi
        exfalso
        have h0 := hi 0 (by omega)
        rw [List.get?_cons_zero] at h0
        exact hnf (Option.some.inj h0)

/-- C2: Termination by budget — the scroll loop executes at most
`maxScrolls` cycles (the trace of per-cycle new-record counts is at most
that long), and when every executed cycle finds at least one new record
the loop runs for exactly `maxScrolls` cycles. -/
theorem termination_by_budget (u : String) (pages : Nat → List Article) (maxScrolls : Nat) :
    (scrape_tweets u pages maxScrolls).2.length ≤ maxScrolls ∧
    ((∀ x ∈ (scrape_tweets u pages maxScrolls).2, 0 < x) →
      (scrape_tweets u pages maxScrolls).2.length = maxScrolls) :=
  ⟨scrapeLoop_len_le u pages maxScrolls 0 0 initState,
   fun h => scrapeLoop_len_all_pos u pages maxScrolls 0 0 initState h⟩

/-- C2 witness: concrete pages with a fresh record every cycle and
`max_scrolls = 3` stop after exactly 3 cycles. -/
theorem termination_by_budget_witness :
    (∀ x ∈ (scrape_tweets "alice" cPagesC2 3).2, 0 < x) ∧
    (scrape_tweets "alice" cPagesC2 3).2.length = 3 :=
  ⟨by decide, (termination_by_budget "alice" cPagesC2 3).2 (by decide)⟩

/-- C3: Termination by idleness — once `idle_streak` reaches 5 (five
consecutive executed cycles with zero newly accepted records) the loop
executes no further cycle: any five consecutive zero entries in the
new-record trace are its final five entries, so the run has exactly
`j + 5` cycles when the zero window starts at cycle `j`. -/
theorem termination_by_idleness (u : String) (pages : Nat → List Article) (maxScrolls j : Nat)
    (hj : ∀ i, i < 5 → (scrape_tweets u pages maxScrolls).2.get? (j + i) = some 0) :
    (scrape_tweets u pages maxScrolls).2.length = j + 5 :=
  (scrapeLoop_idle_window u pages maxScrolls 0 0 initState (by omega)).1 j hj

/-- C3 witness: concrete pages that stop yielding new records after
cycle 2 (cycles 0 and 1 each accept one record); with budget 200 the
loop stops after exactly 2 + 5 = 7 cycles. -/
theorem termination_by_idleness_witness :
    (∀ i, i < 5 → (scrape_tweets "alice" cPagesC3 200).2.get? (2 + i) = some 0) ∧
    (scrape_tweets "alice" cPagesC3 200).2.length = 2 + 5 :=
  ⟨by decide, termination_by_idleness "alice" cPagesC3 200 2 (by decide)⟩

lemma takeWhile_append_all (p : Char → Bool) :
    ∀ l1 l2 : List Char, (∀ c ∈ l1, p c = true) →
      (l1 ++ l2).takeWhile p = l1 ++ l2.takeWhile p := by
  intro l1
  induction l1 with
  | nil => intro l2 _; rfl
  | cons c cs ih =>
    intro l2 h
    rw [List.cons_append, List.takeWhile_cons, h c (List.mem_cons_self c cs)]
    simp only [if_true]
    rw [ih l2 (fun d hd => h d (List.mem_cons_of_mem c hd)), List.cons_append]

lemma takeWhile_head_not (p : Char → Bool) (l : List Char)
    (h : ∀ c ∈ l.take 1, p c = false) : l.takeWhile p = [] := by
  cases l with
  | nil => rfl
  | cons c cs =>
    rw [List.takeWhile_cons, h c (by simp)]
    simp

lemma firstDigitRun_none : ∀ l : List Char, (∀ c ∈ l, c.isDigit = false) →
    firstDigitRun l = none := by
  intro l
  induction l with
  | nil => intro _; rfl
  | cons c cs ih =>
    intro h
    simp only [firstDigitRun]
    rw [h c (List.mem_cons_self c cs)]
    simp only [Bool.false_eq_true, if_false]
    exact ih (fun d hd => h d (List.mem_cons_of_mem c hd))

/-- `re.search(r'\d+', ...)` finds exactly the first maximal digit run:
if the text decomposes as a digit-free part, a non-empty all-digit run,
and a tail that does not start with a digit, the match is that run. -/
lemma firstDigitRun_spec : ∀ pre run post : List Char,
    (∀ c ∈ pre, c.isDigit = false) → run ≠ [] → (∀ c ∈ run, c.isDigit = true) →
    (∀ c ∈ post.take 1, c.isDigit = false) →
    firstDigitRun (pre ++ run ++ post) = some run := by
  intro pre
  induction pre with
  | nil =>
    intro run post _ hne hrun hpost
    cases run with
    | nil => exact absurd rfl hne
    | cons c cs =>
      rw [List.nil_append, List.cons_append]
      simp only [firstDigitRun]
      rw [hrun c (List.mem_cons_self c cs)]
      simp only [if_true]
      rw [takeWhile_append_all Char.isDigit cs post
            (fun d hd => hrun d (List.mem_cons_of_mem c hd)),
          takeWhile_head_not Char.isDigit post hpost]
      simp
  | cons c cs ih =>
    intro run post hpre hne hrun hpost
    rw [List.cons_append, List.cons_append]
    simp only [firstDigitRun]
    rw [hpre c (List.mem_cons_self c cs)]
    simp only [Bool.false_eq_true, if_false]
    exact ih run post (fun d hd => hpre d (List.mem_cons_of_mem c hd)) hne hrun hpost

/-- C7: Counter extraction — the extracted count is the integer value of
the first maximal run of decimal digits of the sub-element text (so a
text starting `1.2K ...` yields 1); it is 0 when the text has no digit
or the sub-element is missing; and the record's three counts are read
from the fixed positions 0, 1, 2 (replies, reposts, likes) of the first
statistics group. Counts are `Nat`, hence non-negative. -/
theorem counter_first_digit_run :
    (∀ pre run post : List Char,
      (∀ c ∈ pre, c.isDigit = false) → run ≠ [] → (∀ c ∈ run, c.isDigit = true) →
      (∀ c ∈ post.take 1, c.isDigit = false) →
      statValue ⟨pre ++ run ++ post⟩ = digitsToNat run) ∧
    (∀ s : String, (∀ c ∈ s.data, c.isDigit = false) → statValue s = 0) ∧
    (∀ (elems : List String) (i : Nat), elems.length ≤ i → statAt elems i = 0) ∧
    (∀ (a : Article) (ts tid u : String),
      (buildRecord ts tid a u).replies = statAt (statElems a) 0 ∧
      (buildRecord ts tid a u).retweets = statAt (statElems a) 1 ∧
      (buildRecord ts tid a u).likes = statAt (statElems a) 2) := by
  refine ⟨?_, ?_, ?_, ?_⟩
  · intro pre run post h1 h2 h3 h4
    show (match firstDigitRun (pre ++ run ++ post) with
          | some r => digitsToNat r
          | none => 0) = digitsToNat run
    rw [firstDigitRun_spec pre run post h1 h2 h3 h4]
  · intro s h
    show (match firstDigitRun s.data with
          | some r => digitsToNat r
          | none => 0) = 0
    rw [firstDigitRun_none s.data h]
  · intro elems i h
    unfold statAt
    rw [List.get?_eq_none.2 h]
  · intro a ts tid u
    exact ⟨rfl, rfl, rfl⟩

/-- C7 witness: the text `1.2K replies` yields the count 1 (its first
digit run is the single digit 1), and an all-letter text yields 0. -/
theorem counter_first_digit_run_witness :
    statValue "1.2K replies" = 1 ∧ statValue "replies" = 0 := by
  constructor
  · have h := counter_first_digit_run.1 [] ['1'] (String.data ".2K replies")
      (by decide) (by decide) (by decide) (by decide)
    have he : (⟨[] ++ ['1'] ++ String.data ".2K replies"⟩ : String) = "1.2K replies" := by decide
    rw [he] at h
    rw [h]
    decide
  · exact counter_first_digit_run.2.1 "replies" (by decide)

/-- C4 counterexample: the code applies no clamping. With
`base_pause = 5/2` and `variation = 3 ≥ base_pause`, the jitter `-3`
lies in `[-variation, variation]` and the sleep argument is negative,
refuting the claim that the pause is always clamped positive. -/
theorem pause_not_clamped_cex :
    (-3 : ℚ) ≤ -3 ∧ (-3 : ℚ) ≤ 3 ∧ (5/2 : ℚ) ≤ 3 ∧ sleepArg (5/2) (-3) < 0 := by
  refine ⟨le_refl _, by norm_num, by norm_num, ?_⟩
  unfold sleepArg
  norm_num

/-- C4 amended: no floor is applied; the sleep argument
`base_pause + jitter` is strictly positive whenever
`variation < base_pause` (in particular for the defaults 2.5 and 1.0),
but can be zero or negative once `variation ≥ base_pause`. -/
theorem pause_positive_when_variation_lt_base (basePause variation jitter : ℚ)
    (h1 : -variation ≤ jitter) (h2 : jitter ≤ variation) (h3 : variation < basePause) :
    0 < sleepArg basePause jitter := by
  unfold sleepArg
  linarith

/-- C4 witness: default parameters `base_pause = 5/2`, `variation = 1`,
worst-case jitter `-1` still give a positive sleep argument. -/
theorem pause_positive_witness :
    -(1:ℚ) ≤ -1 ∧ (-1:ℚ) ≤ 1 ∧ (1:ℚ) < 5/2 ∧ 0 < sleepArg (5/2) (-1) :=
  ⟨le_refl _, by norm_num, by norm_num,
   pause_positive_when_variation_lt_base (5/2) 1 (-1) (by norm_num) (by norm_num) (by norm_num)⟩

/-- C5 counterexample: a fragment whose time-marker element is present
but lacks the `datetime` attribute makes the whole extraction fail
(`None`), instead of producing a record with an unknown-sentinel
timestamp as the claim states. -/
theorem timestamp_missing_attr_cex :
    cA5.timeElem = some ⟨none, some (some "/alice/status/9")⟩ ∧
    extract_tweet_data cA5 "alice" = none :=
  ⟨rfl, by decide⟩

/-- C5 amended: if the time-marker element is absent, extraction still
succeeds and the record carries the sentinel timestamp with the other
fields populated from the fragment; but if the element is present and
its `datetime` attribute is absent, the attribute lookup raises and the
whole extraction fails. -/
theorem timestamp_extraction_behavior :
    (∀ (a : Article) (u : String), a.timeElem = none →
      extract_tweet_data a u = some (buildRecord "Unknown" "Unknown" a u) ∧
      (buildRecord "Unknown" "Unknown" a u).timestamp = "Unknown") ∧
    (∀ (a : Article) (te : TimeElem) (u : String),
      a.timeElem = some te → te.datetimeAttr = none → extract_tweet_data a u = none) := by
  constructor
  · intro a u h
    exact ⟨extract_of_no_time a u h, rfl⟩
  · intro a te u h h2
    exact extract_of_no_datetime a te u h h2

/-- C5 witness: a concrete fragment without a time marker extracts to a
record with timestamp sentinel, and a concrete fragment with a
datetime-less time marker fails extraction. -/
theorem timestamp_extraction_behavior_witness :
    (extract_tweet_data cA5b "bob" = some (buildRecord "Unknown" "Unknown" cA5b "bob") ∧
     (buildRecord "Unknown" "Unknown" cA5b "bob").timestamp = "Unknown") ∧
    extract_tweet_data cA5 "alice" = none :=
  ⟨timestamp_extraction_behavior.1 cA5b "bob" rfl,
   timestamp_extraction_behavior.2 cA5 ⟨none, some (some "/alice/status/9")⟩ "alice" rfl rfl⟩

end TwitterScraper
